import Mathlib

/-!
Verification development for the `bdx-collect-exporter` repository (Go).

The repository scrapes a facility-monitoring web application and republishes
the extracted readings as Prometheus gauge metrics.  This file embeds the
string-processing, parsing and metric-publication logic of the Go sources
(`scraper` package, `collector` package) as executable Lean definitions over
`List Char`, and proves or refutes the frozen specification claims about them.

Modelling conventions:
* Go `string` values are embedded as `List Char` (`Str`); all the inputs the
  program handles are scraped HTML/JSON text, and the Go code only uses
  byte-index arithmetic internally consistently, so character-level indexing
  is an isomorphic model.
* Go `float64` values are embedded as `ℚ`.  Every numeric value the program
  manipulates is produced by `strconv.ParseFloat` from short decimal text and
  is only ever stored and compared, never combined arithmetically, so exact
  rational semantics agree with the float semantics on everything proved here.
* A Prometheus `GaugeVec` is embedded as an association list from the label
  tuple to the gauge value; `Reset` empties it and `WithLabelValues(...).Set`
  updates the entry with the given key or appends a fresh one.
* A Go runtime panic is embedded as `Option.none` in the result type of the
  function whose execution aborts.
-/

namespace BDX

/-- Go strings, embedded character by character. -/
abbrev Str := List Char

/-- The white-space test used by `strings.TrimSpace` / `strings.Fields`
(`unicode.IsSpace`), restricted to the code points that can occur in the
scraped pages. -/
def isGoSpace (c : Char) : Bool :=
  c = ' ' || c = '\t' || c = '\n' || c = '\r' ||
  c = Char.ofNat 11 || c = Char.ofNat 12 || c = Char.ofNat 0x85 || c = Char.ofNat 0xA0

/-- Embeds `strings.TrimSpace`: drop white-space from both ends. -/
def trimSpace (s : Str) : Str :=
  (s.dropWhile isGoSpace).rdropWhile isGoSpace

/-- ASCII lower-casing of one character, as `strings.ToLower` acts on the
characters appearing in the scraped pages (non-ASCII characters such as `°`
are left unchanged by `strings.ToLower` as well). -/
def lowerChar (c : Char) : Char :=
  if 'A' ≤ c ∧ c ≤ 'Z' then Char.ofNat (c.toNat + 32) else c

/-- Embeds `strings.ToLower`. -/
def toLowerStr (s : Str) : Str := s.map lowerChar

/-- Embeds `strings.ReplaceAll s (string of a) (string of b)` for one-character
pattern and replacement: every occurrence of the character `a` is replaced by
`b`. -/
def replaceChar (s : Str) (a b : Char) : Str :=
  s.map fun c => if c = a then b else c

/-- One collapsing step of the Go regular expression `_+` replaced by `"_"`
(`regexp.MustCompile` + `ReplaceAllString` in `normalizeItem`): every maximal
run of underscores is contracted to a single underscore. -/
def squeezeUnd : Str → Str
  | [] => []
  | [c] => [c]
  | a :: b :: rest =>
    if a = '_' ∧ b = '_' then squeezeUnd (b :: rest)
    else a :: squeezeUnd (b :: rest)

/-- Embeds `strings.Trim s "_"`: remove leading and trailing underscores. -/
def trimUnd (s : Str) : Str :=
  (s.dropWhile (· == '_')).rdropWhile (· == '_')

/-- Embeds `normalizeItem` (scraper): replace spaces and dashes by
underscores, collapse runs of underscores, trim boundary underscores. -/
def normalizeItem (item : Str) : Str :=
  trimUnd (squeezeUnd (replaceChar (replaceChar item ' ' '_') '-' '_'))

/-- Does `pat` occur in `s` starting at index `i`?  (Bool-valued.) -/
def occursAt (s pat : Str) (i : Nat) : Bool :=
  pat.isPrefixOf (s.drop i)

/-- Embeds `strings.Index s pat` (as `some index` / `none` instead of `-1`):
index of the first occurrence of `pat` in `s`. -/
def indexOfSub : Str → Str → Option Nat
  | [], pat => if pat.isPrefixOf [] then some 0 else none
  | c :: s', pat =>
    if pat.isPrefixOf (c :: s') then some 0
    else (indexOfSub s' pat).map (· + 1)

/-- Embeds `strings.Contains`. -/
def containsSub (s pat : Str) : Bool := (indexOfSub s pat).isSome

/-- Worker for `splitOnSub`; the fuel argument only forces termination and is
always supplied large enough (an occurrence of a non-empty separator consumes
at least one character). -/
def splitOnSubAux (sep : Str) : Nat → Str → List Str
  | 0, s => [s]
  | fuel + 1, s =>
    match indexOfSub s sep with
    | none => [s]
    | some i => s.take i :: splitOnSubAux sep fuel (s.drop (i + sep.length))

/-- Embeds `strings.Split s sep` for non-empty separators. -/
def splitOnSub (s sep : Str) : List Str :=
  splitOnSubAux sep s.length s

/-- Worker for `replaceAllSub`, with the same fuel convention. -/
def replaceAllSubAux (pat rep : Str) : Nat → Str → Str
  | 0, s => s
  | fuel + 1, s =>
    match indexOfSub s pat with
    | none => s
    | some i => s.take i ++ rep ++ replaceAllSubAux pat rep fuel (s.drop (i + pat.length))

/-- Embeds `strings.ReplaceAll s pat rep` for non-empty, multi-character
patterns (leftmost, non-overlapping). -/
def replaceAllSub (s pat rep : Str) : Str :=
  replaceAllSubAux pat rep s.length s

/-- Worker for `fields`: split around maximal runs of white space. -/
def fieldsAux : Nat → Str → List Str
  | 0, _ => []
  | fuel + 1, s =>
    match s.dropWhile isGoSpace with
    | [] => []
    | c :: rest =>
      let word := c :: rest.takeWhile (fun d => ¬ isGoSpace d)
      word :: fieldsAux fuel ((c :: rest).drop word.length)

/-- Embeds `strings.Fields`. -/
def fields (s : Str) : List Str := fieldsAux s.length s

/-- Worker for `removeTags`; fuel is the input length (every step consumes at
least one character). -/
def removeTagsAux : Nat → Str → Str
  | 0, s => s
  | fuel + 1, s =>
    match s with
    | [] => []
    | c :: rest =>
      if c = '<' then
        match rest.findIdx? (· == '>') with
        | some k => removeTagsAux fuel (rest.drop (k + 1))
        | none => c :: removeTagsAux fuel rest
      else c :: removeTagsAux fuel rest

/-- Embeds the action of `regexp.MustCompile("<[^>]*>").ReplaceAllString(text, "")`
used by `extractText` (scraper): delete every bracketed tag; a `<` with no
subsequent `>` stays in place (the regular expression cannot match it). -/
def removeTags (s : Str) : Str := removeTagsAux s.length s

/-- Embeds `extractText` (scraper, regex-based variant): skip up to the first
`>`, strip the remaining tags, trim white space. -/
def extractText (cell : Str) : Str :=
  match cell.findIdx? (· == '>') with
  | none => []
  | some k => trimSpace (removeTags (cell.drop (k + 1)))

/-- Is `c` an ASCII digit? -/
def isDigitCh (c : Char) : Bool := '0' ≤ c ∧ c ≤ '9'

/-- The natural number denoted by a run of ASCII digits. -/
def digitsToNat (ds : Str) : Nat :=
  ds.foldl (fun n c => n * 10 + (c.toNat - 48)) 0

/-- Embeds `strconv.ParseFloat(s, 64)` on the plain decimal forms
(`[+-]? digits [. digits?] [eE [+-]? digits]`, or a fractional part alone)
that the scraped pages produce; the hexadecimal / `Inf` / `NaN` / underscored
forms of Go's full grammar never occur in this program's inputs and are not
modelled (they would parse here as failures, like any other non-decimal
text).  Any trailing characters after the number make the parse fail, exactly
as in Go. -/
def parseFloat (s : Str) : Option ℚ :=
  let (sign, s1) : ℚ × Str :=
    match s with
    | '+' :: r => (1, r)
    | '-' :: r => (-1, r)
    | r => (1, r)
  let ip := s1.takeWhile isDigitCh
  let s2 := s1.drop ip.length
  let (fp, s3) : Option Str × Str :=
    match s2 with
    | '.' :: r => (some (r.takeWhile isDigitCh), r.drop (r.takeWhile isDigitCh).length)
    | r => (none, r)
  if ip = [] ∧ fp.getD ['0'] = [] then none
  else if ip = [] ∧ fp = none then none
  else
    let mant : ℚ := (digitsToNat ip : ℚ) +
      (match fp with
       | some f => (digitsToNat f : ℚ) / ((10 : ℚ) ^ f.length)
       | none => 0)
    match s3 with
    | [] => some (sign * mant)
    | e :: r =>
      if e = 'e' ∨ e = 'E' then
        let (esign, r1) : Int × Str :=
          match r with
          | '+' :: t => (1, t)
          | '-' :: t => (-1, t)
          | t => (1, t)
        let ed := r1.takeWhile isDigitCh
        if ed = [] ∨ r1.drop ed.length ≠ [] then none
        else some (sign * mant * (10 : ℚ) ^ (esign * (digitsToNat ed : Int)))
      else none

/-- An alarm entry extracted from a CDU dashboard (`CDUAlarm` in the scraper). -/
structure CDUAlarm where
  Item : Str
  Status : Str
deriving DecidableEq, Repr

/-- A parameter entry extracted from a CDU dashboard (`CDUParameter`). -/
structure CDUParameter where
  Item : Str
  Value : ℚ
  Unit : Str
deriving DecidableEq, Repr

/-- The title marker `parseCDUHTML` locates to name a CDU page. -/
def h5Marker : Str := "<h5 class=\"card-title mb-0\">".data

/-- The name-extraction prefix of `parseCDUHTML` (scraper): the text of the
first `<h5 class="card-title mb-0">` element, trimmed, with `-` replaced by
`_`, falling back to `"CDU_1.1"` when the element is missing or its text is
empty. -/
def parseCDUName (html : Str) : Str :=
  let name : Str :=
    match indexOfSub html h5Marker with
    | none => []
    | some nameStart =>
      match indexOfSub (html.drop nameStart) "</h5>".data with
      | none => []
      | some nameEnd =>
        let nameText := (html.drop (nameStart + h5Marker.length)).take (nameEnd - h5Marker.length)
        replaceChar (trimSpace nameText) '-' '_'
  if name = [] then "CDU_1.1".data else name

/-- The alarm-row loop body of `parseCDUHTML`: a row qualifies when it holds a
`<td` cell with the `td-detail` class and at least three `<td`-chunks; the
second chunk is the normalized item, the third the lower-cased status. -/
def alarmRowRecord (row : Str) : Option CDUAlarm :=
  if containsSub row "<td".data ∧ containsSub row "td-detail".data then
    let cells := splitOnSub row "<td".data
    if 3 ≤ cells.length then
      let item := normalizeItem (extractText (cells.getD 1 []))
      let status := toLowerStr (extractText (cells.getD 2 []))
      if item ≠ [] ∧ status ≠ [] then some ⟨item, status⟩ else none
    else none
  else none

/-- The parameter-row loop body of `parseCDUHTML`: needs at least four
`<td`-chunks; the numeric value is `strconv.ParseFloat` applied to the whole
extracted text of the third chunk, and the unit is the separate fourth chunk;
rows whose item or value text is empty, or whose value fails to parse, are
skipped. -/
def paramRowRecord (row : Str) : Option CDUParameter :=
  if containsSub row "<td".data ∧ containsSub row "td-detail".data then
    let cells := splitOnSub row "<td".data
    if 4 ≤ cells.length then
      let item := normalizeItem (extractText (cells.getD 1 []))
      let valueStr := extractText (cells.getD 2 [])
      let unit := extractText (cells.getD 3 [])
      if item ≠ [] ∧ valueStr ≠ [] then
        match parseFloat valueStr with
        | some v => some ⟨item, v, unit⟩
        | none => none
      else none
    else none
  else none

/-- Embeds `parseCDUHTML` (scraper): extract the page name, then the alarm
table (first `<tbody>` after the text `ALARM`) and the parameter table (first
`<tbody>` after `PARAMETER`), each split on `<tr>` and filtered through the
row logic above; any missing marker returns what was collected so far. -/
def parseCDUHTML (html : Str) : Str × List CDUAlarm × List CDUParameter :=
  let name := parseCDUName html
  match indexOfSub html "ALARM".data with
  | none => (name, [], [])
  | some aStart =>
    match indexOfSub (html.drop aStart) "<tbody>".data with
    | none => (name, [], [])
    | some aRel =>
      let aTbodyStart := aStart + aRel
      match indexOfSub (html.drop aTbodyStart) "</tbody>".data with
      | none => (name, [], [])
      | some aEnd =>
        let alarmTbody := (html.drop aTbodyStart).take aEnd
        let alarms := (splitOnSub alarmTbody "<tr>".data).filterMap alarmRowRecord
        match indexOfSub html "PARAMETER".data with
        | none => (name, alarms, [])
        | some pStart =>
          match indexOfSub (html.drop pStart) "<tbody>".data with
          | none => (name, alarms, [])
          | some pRel =>
            let pTbodyStart := pStart + pRel
            match indexOfSub (html.drop pTbodyStart) "</tbody>".data with
            | none => (name, alarms, [])
            | some pEnd =>
              let paramTbody := (html.drop pTbodyStart).take pEnd
              let params := (splitOnSub paramTbody "<tr>".data).filterMap paramRowRecord
              (name, alarms, params)

/-- Rack liquid-cooling data (`LiquidRack` in the scraper); numeric fields
start at Go's zero value when a rack aggregate is first created. -/
structure LiquidRack where
  RackNumber : Str
  RackLiquidCooling : ℚ
  TCSFlow : ℚ
  TCSDeltaTemp : ℚ
  TCSTempSupply : ℚ
deriving DecidableEq, Repr

/-- One attempted match of the Go regular expression
`<th[^>]*>([^<]+)</th>` at the head of `s`: on success, the capture group and
the remainder after the whole match.  The pattern is deterministic (each
quantified class is a maximal run that cannot backtrack into the following
literal), so this scanner is exact. -/
def tryThAt (s : Str) : Option (Str × Str) :=
  if "<th".data.isPrefixOf s then
    let rest := s.drop 3
    let attrs := rest.takeWhile (fun c => ¬ c = '>')
    match rest.drop attrs.length with
    | '>' :: rest2 =>
      let cap := rest2.takeWhile (fun c => ¬ c = '<')
      if cap = [] then none
      else if "</th>".data.isPrefixOf (rest2.drop cap.length) then
        some (cap, (rest2.drop cap.length).drop 5)
      else none
    | _ => none
  else none

/-- Worker scanning for all matches left to right (Go
`FindAllStringSubmatch(..., -1)` semantics: continue after each match, else
advance one character); fuel is the input length. -/
def thScanAux : Nat → Str → List Str
  | 0, _ => []
  | _ + 1, [] => []
  | fuel + 1, c :: tail =>
    match tryThAt (c :: tail) with
    | some (cap, rem) => cap :: thScanAux fuel rem
    | none => thScanAux fuel tail

/-- All capture groups of `<th[^>]*>([^<]+)</th>` in `s`, in order. -/
def thMatches (s : Str) : List Str := thScanAux s.length s

/-- The `switch label` statement of `parseRackTable`: write the value into
the aggregate's field selected by the normalized row label (unknown labels
change nothing). -/
def setRackField (r : LiquidRack) (label : Str) (v : ℚ) : LiquidRack :=
  if label = "rack_liquid_cooling".data then { r with RackLiquidCooling := v }
  else if label = "tcs_flow".data then { r with TCSFlow := v }
  else if label = "tcs_delta_temp".data then { r with TCSDeltaTemp := v }
  else if label = "tcs_temp_supply".data then { r with TCSTempSupply := v }
  else r

/-- The find-or-create step of `parseRackTable`: update the first aggregate
whose `RackNumber` equals `rackNum`, or append a fresh zero-initialised one. -/
def updateRack : List LiquidRack → Str → Str → ℚ → List LiquidRack
  | [], rackNum, label, v => [setRackField ⟨rackNum, 0, 0, 0, 0⟩ label v]
  | r :: rest, rackNum, label, v =>
    if r.RackNumber = rackNum then setRackField r label v :: rest
    else r :: updateRack rest rackNum label v

/-- The two value-text substitutions shared by `parseCDUTable` and
`parseRackTable` before numeric parsing: `I/min` → `l/min` and `°C` → `C`. -/
def cduTableValueNormalize (v : Str) : Str :=
  replaceAllSub (replaceAllSub v "I/min".data "l/min".data) "°C".data "C".data

/-- The inner per-rack loop of `parseRackTable` over the indexed rack
numbers: columns are read at a fixed skew (`cells[i+2]`), value text is
unit-normalized, then `strings.Fields(valueStr)[0]` is parsed; an **empty**
field list makes the Go code index out of range and panic, embedded as
`none`; a failed float parse merely skips the cell. -/
def rackValuesLoop (cells : List Str) (label : Str) :
    List (Nat × Str) → List LiquidRack → Option (List LiquidRack)
  | [], racks => some racks
  | (i, rackNum) :: rest, racks =>
    if cells.length ≤ i + 2 then rackValuesLoop cells label rest racks
    else
      let valueStr := extractText (cells.getD (i + 2) [])
      let valueStr := replaceAllSub (cduTableValueNormalize valueStr) "kW".data "kW".data
      match fields valueStr with
      | [] => none
      | tok :: _ =>
        match parseFloat tok with
        | none => rackValuesLoop cells label rest racks
        | some v => rackValuesLoop cells label rest (updateRack racks rackNum label v)

/-- The body-row loop step of `parseRackTable`. -/
def rackRowStep (rackNumbers : List Str) (racks : List LiquidRack) (row : Str) :
    Option (List LiquidRack) :=
  if ¬ containsSub row "<td".data then some racks
  else
    let cells := splitOnSub row "<td".data
    if cells.length < 2 then some racks
    else
      let label := toLowerStr (replaceChar (extractText (cells.getD 1 [])) ' ' '_')
      if label = [] then some racks
      else rackValuesLoop cells label rackNumbers.enum racks

/-- Embeds `parseRackTable` (scraper): read the rack identifiers from the
`RACK `-prefixed `<th>` cells of the `<thead>` region, then fold the
`<tbody>` rows through the row step above; `none` models the runtime panic on
an empty value cell.  The `compartment` argument is unused, as in the Go
source. -/
def parseRackTable (tableHTML : Str) (compartment : Str) : Option (List LiquidRack) :=
  let _ := compartment
  match indexOfSub tableHTML "<thead".data with
  | none => some []
  | some headerStart =>
    match indexOfSub (tableHTML.drop headerStart) "</thead>".data with
    | none => some []
    | some headerEnd =>
      let headerHTML := (tableHTML.drop headerStart).take headerEnd
      let rackNumbers := (thMatches headerHTML).filterMap fun m =>
        if containsSub m "RACK ".data then
          some (trimSpace (replaceAllSub m "RACK ".data []))
        else none
      match indexOfSub tableHTML "<tbody".data with
      | none => some []
      | some tbStart =>
        match indexOfSub (tableHTML.drop tbStart) "</tbody>".data with
        | none => some []
        | some tbEnd =>
          let tbodyHTML := (tableHTML.drop tbStart).take tbEnd
          let rows := splitOnSub tbodyHTML "<tr".data
          rows.foldlM (rackRowStep rackNumbers) []

/-! ## Collector layer (collector package) -/

/-- A decoded JSON field value for `temp` / `rh`, which upstream encodes
inconsistently as a JSON number or a numeric string (`interface{}` after
`encoding/json` unmarshalling); `other` stands for any further JSON type. -/
inductive JSONValue where
  | str : Str → JSONValue
  | num : ℚ → JSONValue
  | other : JSONValue
deriving DecidableEq, Repr

/-- One element of the sensor array (`SensorData` in the collector). -/
structure SensorData where
  label : Str
  temp : JSONValue
  rh : JSONValue
deriving DecidableEq, Repr

/-- Embeds `parseValue` (collector): strings go through
`strconv.ParseFloat`, numbers pass through, anything else is an error. -/
def parseValue : JSONValue → Option ℚ
  | .str s => parseFloat s
  | .num q => some q
  | .other => none

/-- A single-label gauge family (`bdx_temperature` / `bdx_humidity`) as an
association list keyed by the `name` label; `WithLabelValues(l).Set(v)`
updates the child with that label or creates it. -/
def trhGaugeSet : List (Str × ℚ) → Str → ℚ → List (Str × ℚ)
  | [], l, v => [(l, v)]
  | (l', v') :: rest, l, v =>
    if l' = l then (l', v) :: rest else (l', v') :: trhGaugeSet rest l v

/-- The loop body of `collectTRH` for one sensor, acting on the pair of
(temperature, humidity) family states: a sensor whose `temp` fails to coerce
is skipped (`continue`); one whose `rh` fails is also skipped (after the
`temp` parse); otherwise both gauges are set, keyed by the sensor label. -/
def trhStep (acc : List (Str × ℚ) × List (Str × ℚ)) (s : SensorData) :
    List (Str × ℚ) × List (Str × ℚ) :=
  match parseValue s.temp with
  | none => acc
  | some tv =>
    match parseValue s.rh with
    | none => acc
    | some hv => (trhGaugeSet acc.1 s.label tv, trhGaugeSet acc.2 s.label hv)

/-- The sensor loop of `collectTRH` starting from freshly reset temperature
and humidity families. -/
def processSensors (sensors : List SensorData) : List (Str × ℚ) × List (Str × ℚ) :=
  sensors.foldl trhStep ([], [])

/-- One cycle of `collectTRH` acting on the exposed temperature and humidity
families: a fetch / decode failure (`none`) returns before the `Reset`
calls, leaving both families exactly as the previous cycle published them;
on success both families are reset and repopulated from the batch. -/
def collectTRHCycle (prevTemp prevHum : List (Str × ℚ))
    (fetch : Option (List SensorData)) : List (Str × ℚ) × List (Str × ℚ) :=
  match fetch with
  | none => (prevTemp, prevHum)
  | some sensors => processSensors sensors

/-- One exposed sample of the `bdx_cdu` family: the five label values and the
gauge value. -/
structure CDUSample where
  name : Str
  type : Str
  item : Str
  status : Str
  metrixType : Str
  value : ℚ
deriving DecidableEq, Repr

/-- The label tuple keying a `bdx_cdu` child. -/
def cduKey (s : CDUSample) : Str × Str × Str × Str × Str :=
  (s.name, s.type, s.item, s.status, s.metrixType)

/-- `WithLabelValues(...).Set` on the `bdx_cdu` family. -/
def cduGaugeSet : List CDUSample → CDUSample → List CDUSample
  | [], s => [s]
  | s' :: rest, s =>
    if cduKey s' = cduKey s then s :: rest else s' :: cduGaugeSet rest s

/-- The alarm publication step of `collectCDU` (collector): the item has
spaces and dashes replaced by underscores (it is **not** lower-cased), the
status is lower-cased, the value is the constant `1`, `metrix_type` is empty. -/
def cduAlarmSample (name : Str) (a : CDUAlarm) : CDUSample :=
  let item := replaceChar (replaceChar a.Item ' ' '_') '-' '_'
  ⟨name, "alarm".data, item, toLowerStr a.Status, [], 1⟩

/-- The unit normalization of `collectCDU`: lower-case the unit, then map
`°c` to `celsius` and `%rh` to `percent_rh`; every other unit is exposed in
its lower-cased form. -/
def cduUnitNormalize (u : Str) : Str :=
  let unit := toLowerStr u
  if unit = "°c".data then "celsius".data
  else if unit = "%rh".data then "percent_rh".data
  else unit

/-- The parameter publication step of `collectCDU`. -/
def cduParamSample (name : Str) (p : CDUParameter) : CDUSample :=
  let item := replaceChar (replaceChar p.Item ' ' '_') '-' '_'
  ⟨name, "parameter".data, item, "normal".data, cduUnitNormalize p.Unit, p.Value⟩

/-- One cycle of `collectCDU` acting on the exposed `bdx_cdu` family: the
family is `Reset` **before** any URL is fetched, then each successfully
fetched page is parsed by `parseCDUHTML` and its alarms and parameters
published; a failed URL (`none`) contributes nothing.  The previous cycle's
family is discarded unconditionally. -/
def collectCDUCycle (prev : List CDUSample) (pages : List (Option Str)) :
    List CDUSample :=
  let _ := prev
  pages.foldl
    (fun fam page? =>
      match page? with
      | none => fam
      | some page =>
        let parsed := parseCDUHTML page
        let fam := parsed.2.1.foldl (fun f a => cduGaugeSet f (cduAlarmSample parsed.1 a)) fam
        parsed.2.2.foldl (fun f p => cduGaugeSet f (cduParamSample parsed.1 p)) fam)
    []

/-- CDU liquid-cooling data (`LiquidCDU` in the scraper). -/
structure LiquidCDU where
  Name : Str
  Status : ℚ
  FWSFlow : ℚ
  FWSTempSup : ℚ
  FWSTempRet : ℚ
  TCSFlow : ℚ
  TCSTempSup : ℚ
  TCSTempRet : ℚ
deriving DecidableEq, Repr

/-- One exposed sample of the `bdx_liquid` / `bdx_liquid_rack` families. -/
structure LiquidSample where
  name : Str
  type : Str
  metrixType : Str
  value : ℚ
deriving DecidableEq, Repr

/-- The seven samples `collectLiquid` publishes per `LiquidCDU`. -/
def liquidCDUSamples (c : LiquidCDU) : List LiquidSample :=
  [⟨c.Name, "status".data, "percentage".data, c.Status⟩,
   ⟨c.Name, "fws_flow".data, "l/min".data, c.FWSFlow⟩,
   ⟨c.Name, "fws_temp_sup".data, "C".data, c.FWSTempSup⟩,
   ⟨c.Name, "fws_temp_ret".data, "C".data, c.FWSTempRet⟩,
   ⟨c.Name, "tcs_flow".data, "l/min".data, c.TCSFlow⟩,
   ⟨c.Name, "tcs_temp_sup".data, "C".data, c.TCSTempSup⟩,
   ⟨c.Name, "tcs_temp_ret".data, "C".data, c.TCSTempRet⟩]

/-- The four samples `collectLiquid` publishes per `LiquidRack`; the `name`
label is the rack number. -/
def liquidRackSamples (r : LiquidRack) : List LiquidSample :=
  [⟨r.RackNumber, "rack_liquid_cooling".data, "kW".data, r.RackLiquidCooling⟩,
   ⟨r.RackNumber, "tcs_flow".data, "l/min".data, r.TCSFlow⟩,
   ⟨r.RackNumber, "tcs_delta_temp".data, "C".data, r.TCSDeltaTemp⟩,
   ⟨r.RackNumber, "tcs_temp_supply".data, "C".data, r.TCSTempSupply⟩]

/-- One cycle of `collectLiquid` acting on the exposed `bdx_liquid` and
`bdx_liquid_rack` families: both are `Reset` before the scrape, so a scrape
failure leaves them **empty** (not stale); on success every CDU and rack
record is published. -/
def collectLiquidCycle (prevCDU prevRack : List LiquidSample)
    (fetch : Option (List LiquidCDU × List LiquidRack)) :
    List LiquidSample × List LiquidSample :=
  let _ := prevCDU
  let _ := prevRack
  match fetch with
  | none => ([], [])
  | some (cdus, racks) =>
    (cdus.foldl (fun fam c => fam ++ liquidCDUSamples c) [],
     racks.foldl (fun fam r => fam ++ liquidRackSamples r) [])

/-! ## Interleaving model for the publication pattern (claim C9)

`collectTRH` publishes through a package-level `GaugeVec` that the
`/metrics` HTTP handler reads concurrently.  Each `Reset` and each `Set` is
individually atomic, but the sequence is not grouped, so a scrape may be
served from any intermediate state of the operation sequence. -/

/-- One atomic operation on a single-label gauge family. -/
inductive GaugeOp where
  | reset : GaugeOp
  | set : Str → ℚ → GaugeOp
deriving DecidableEq, Repr

/-- The effect of one operation on the exposed family state. -/
def applyOp (fam : List (Str × ℚ)) : GaugeOp → List (Str × ℚ)
  | .reset => []
  | .set l v => trhGaugeSet fam l v

/-- The operation sequence `collectTRH` issues on the temperature family
after a successful fetch: one `Reset`, then one `Set` per sensor whose
`temp` **and** `rh` both coerce (the code parses `temp` first, then `rh`,
and only then calls either `Set`). -/
def trhTempOps (sensors : List SensorData) : List GaugeOp :=
  GaugeOp.reset ::
    sensors.foldr
      (fun s acc =>
        match parseValue s.temp, parseValue s.rh with
        | some tv, some _ => GaugeOp.set s.label tv :: acc
        | _, _ => acc)
      []

/-- All states a concurrent reader can observe while the operation sequence
runs: every prefix of the sequence applied to the previous state. -/
def observableStates (prev : List (Str × ℚ)) (ops : List GaugeOp) :
    List (List (Str × ℚ)) :=
  ops.scanl applyOp prev

/-! ## Characterization helpers -/

/-- The coercion a sensor must pass to be published: both `temp` and `rh`
coerce to floats (otherwise the sensor is skipped). -/
def coerceSensor (s : SensorData) : Option (Str × ℚ × ℚ) :=
  match parseValue s.temp, parseValue s.rh with
  | some tv, some hv => some (s.label, tv, hv)
  | _, _ => none

/-- Publishing a list of already-coerced readings into freshly reset
temperature and humidity families. -/
def publishReadings (rs : List (Str × ℚ × ℚ)) : List (Str × ℚ) × List (Str × ℚ) :=
  rs.foldl (fun acc r => (trhGaugeSet acc.1 r.1 r.2.1, trhGaugeSet acc.2 r.1 r.2.2)) ([], [])

/-- Insert an element at every position of a list (used to enumerate row
orders). -/
def insertEverywhere (x : α) : List α → List (List α)
  | [] => [[x]]
  | y :: ys => (x :: y :: ys) :: (insertEverywhere x ys).map (y :: ·)

/-- All orderings of a list, by repeated insertion. -/
def allOrders : List α → List (List α)
  | [] => [[]]
  | x :: xs => (allOrders xs).flatMap (insertEverywhere x)

/-! ## Concrete scenario inputs from the claims -/

/-- A CDU dashboard page holding exactly the alarm row of claim C3: item
cell text `CDU 1.1 - Data Hall`, status cell text `Active`. -/
def c3Page : Str :=
  ("<html><h5 class=\"card-title mb-0\">CGK3A-CL-1.04-CDU-1.1</h5>" ++
   "ALARM<tbody><tr><td class=\"td-detail\">CDU 1.1 - Data Hall</td>" ++
   "<td class=\"td-detail\">Active</td></tr></tbody></html>").data

/-- A CDU dashboard page whose single parameter row has the given value-cell
text (item `TCS Flow`, unit cell `l/min`). -/
def paramPage (v : String) : Str :=
  ("<h5 class=\"card-title mb-0\">CDU-1.1</h5>ALARM<tbody></tbody>" ++
   "PARAMETER<tbody><tr><td class=\"td-detail\">TCS Flow</td>" ++
   "<td class=\"td-detail\">" ++ v ++ "</td>" ++
   "<td class=\"td-detail\">l/min</td></tr></tbody>").data

/-- The parameter row of `paramPage "23.5"` as it reaches the row loop
(after the tbody is split on `<tr>`). -/
def c2GoodRow : Str :=
  ("<td class=\"td-detail\">TCS Flow</td>" ++
   "<td class=\"td-detail\">23.5</td>" ++
   "<td class=\"td-detail\">l/min</td></tr>").data

/-- A rack-matrix table with one rack column whose single body row has an
empty value cell (claim C5's failing input). -/
def c5Table : Str :=
  ("<table><thead><tr><th>F</th><th>RACK 7</th></tr></thead>" ++
   "<tbody><tr><td>TCS FLOW</td><td></td></tr></tbody></table>").data

/-- Header of the two-rack table of claim C6: racks `7` and `8`. -/
def c6Header : Str :=
  "<table><thead><tr><th>F</th><th>RACK 7</th><th>RACK 8</th></tr></thead>".data

/-- Body row for the `rack_liquid_cooling` field (values 1 and 2). -/
def c6Row1 : Str := "<tr><td>RACK LIQUID COOLING</td><td>1</td><td>2</td></tr>".data

/-- Body row for the `tcs_flow` field (values 3 and 4). -/
def c6Row2 : Str := "<tr><td>TCS FLOW</td><td>3</td><td>4</td></tr>".data

/-- Body row for the `tcs_delta_temp` field (values 5 and 6). -/
def c6Row3 : Str := "<tr><td>TCS DELTA TEMP</td><td>5</td><td>6</td></tr>".data

/-- Body row for the `tcs_temp_supply` field (values 7 and 8). -/
def c6Row4 : Str := "<tr><td>TCS TEMP SUPPLY</td><td>7</td><td>8</td></tr>".data

/-- The four body rows of the C6 table in source order. -/
def c6Rows : List Str := [c6Row1, c6Row2, c6Row3, c6Row4]

/-- Assemble the C6 table from body rows in the given order. -/
def mkC6Table (rows : List Str) : Str :=
  c6Header ++ "<tbody>".data ++ rows.foldr (· ++ ·) [] ++ "</tbody></table>".data

/-- The aggregates the C6 table must yield: rack `7` with field values
1/3/5/7 and rack `8` with 2/4/6/8. -/
def c6Expected : List LiquidRack :=
  [⟨"7".data, 1, 3, 5, 7⟩, ⟨"8".data, 2, 4, 6, 8⟩]

/-! ## Structural lemmas about `normalizeItem` -/

/-- No two adjacent underscores (the invariant the `_+` collapse step
establishes). -/
def noDD (a b : Char) : Prop := ¬(a = '_' ∧ b = '_')

/-- The collapse step keeps the first character. -/
theorem squeezeUnd_head (x : Char) (xs : Str) :
    (squeezeUnd (x :: xs)).head? = some x := by
  induction xs generalizing x with
  | nil => rfl
  | cons y rest ih =>
    simp only [squeezeUnd]
    split
    · rename_i h
      rw [ih y, h.1, h.2]
    · rfl

/-- The collapse step leaves no two adjacent underscores. -/
theorem squeezeUnd_chain (s : Str) : List.Chain' noDD (squeezeUnd s) := by
  induction s with
  | nil => simp [squeezeUnd]
  | cons x xs ih =>
    cases xs with
    | nil => simp [squeezeUnd]
    | cons y rest =>
      simp only [squeezeUnd]
      split
      · exact ih
      · rename_i h
        rw [List.chain'_cons']
        refine ⟨fun z hz => ?_, ih⟩
        rw [Option.mem_def, squeezeUnd_head y rest] at hz
        cases hz
        exact h

/-- The collapse step is the identity on strings with no two adjacent
underscores. -/
theorem squeezeUnd_eq_self : ∀ s : Str, List.Chain' noDD s → squeezeUnd s = s := by
  intro s
  induction s with
  | nil => intro _; rfl
  | cons x xs ih =>
    intro h
    cases xs with
    | nil => rfl
    | cons y rest =>
      rw [List.chain'_cons] at h
      simp only [squeezeUnd]
      rw [if_neg h.1, ih h.2]

/-- The collapse step only keeps characters of its input. -/
theorem squeezeUnd_mem : ∀ {s : Str} {c : Char}, c ∈ squeezeUnd s → c ∈ s := by
  intro s
  induction s with
  | nil => intro c hc; simp [squeezeUnd] at hc
  | cons x xs ih =>
    intro c hc
    cases xs with
    | nil => exact hc
    | cons y rest =>
      simp only [squeezeUnd] at hc
      split at hc
      · exact List.mem_cons_of_mem x (ih hc)
      · rcases List.mem_cons.mp hc with h | h
        · exact h ▸ List.mem_cons_self x _
        · exact List.mem_cons_of_mem x (ih h)

/-- After replacing `a` by `b ≠ a`, the character `a` no longer occurs. -/
theorem mem_replaceChar_ne {s : Str} {a b c : Char} (hab : b ≠ a)
    (hc : c ∈ replaceChar s a b) : c ≠ a := by
  unfold replaceChar at hc
  obtain ⟨d, _, hfd⟩ := List.mem_map.mp hc
  by_cases h : d = a
  · rw [if_pos h] at hfd
    rw [← hfd]
    exact hab
  · rw [if_neg h] at hfd
    rw [← hfd]
    exact h

/-- Replacing `a` by `b` introduces no occurrence of a third character `x`
absent from the input. -/
theorem mem_replaceChar_preserve {s : Str} {a b x c : Char}
    (hs : ∀ d ∈ s, d ≠ x) (hbx : b ≠ x) (hc : c ∈ replaceChar s a b) : c ≠ x := by
  unfold replaceChar at hc
  obtain ⟨d, hd, hfd⟩ := List.mem_map.mp hc
  by_cases h : d = a
  · rw [if_pos h] at hfd
    rw [← hfd]
    exact hbx
  · rw [if_neg h] at hfd
    rw [← hfd]
    exact hs d hd

/-- Replacement is the identity when the replaced character is absent. -/
theorem replaceChar_eq_self {s : Str} {a b : Char} (h : ∀ c ∈ s, c ≠ a) :
    replaceChar s a b = s := by
  unfold replaceChar
  conv_rhs => rw [← List.map_id s]
  exact List.map_congr_left fun c hc => if_neg (h c hc)

/-- A non-empty prefix has the same head as the whole list. -/
theorem head?_of_pref_ne_nil {l₁ l₂ : List α} (h : l₁ <+: l₂) (hne : l₁ ≠ []) :
    l₂.head? = l₁.head? := by
  obtain ⟨t, rfl⟩ := h
  exact List.head?_append_of_ne_nil _ hne

/-- Trimming only keeps characters of its input. -/
theorem trimUnd_mem {s : Str} {c : Char} (hc : c ∈ trimUnd s) : c ∈ s := by
  unfold trimUnd at hc
  have hpre := List.rdropWhile_prefix (· == '_') (s.dropWhile (· == '_'))
  exact (List.dropWhile_suffix _).sublist.subset (hpre.sublist.subset hc)

/-- Trimming preserves the no-adjacent-underscores invariant. -/
theorem trimUnd_chain {s : Str} (h : List.Chain' noDD s) :
    List.Chain' noDD (trimUnd s) := by
  have hpre := List.rdropWhile_prefix (· == '_') (s.dropWhile (· == '_'))
  have hsuf := h.suffix (List.dropWhile_suffix (· == '_'))
  exact hsuf.prefix hpre

/-- The trimmed string does not start with an underscore. -/
theorem trimUnd_head_ne (s : Str) : (trimUnd s).head? ≠ some '_' := by
  unfold trimUnd
  have hpre := List.rdropWhile_prefix (· == '_') (s.dropWhile (· == '_'))
  by_cases hne : (s.dropWhile (· == '_')).rdropWhile (· == '_') = []
  · rw [hne]
    simp
  · rw [← head?_of_pref_ne_nil hpre hne]
    have hmatch := List.head?_dropWhile_not (· == '_') s
    cases hh : (s.dropWhile (· == '_')).head? with
    | none => simp
    | some x =>
      rw [hh] at hmatch
      simp only [beq_iff_eq] at hmatch
      simp only [Ne, Option.some.injEq]
      intro hx
      simp [hx] at hmatch

/-- The trimmed string does not end with an underscore. -/
theorem trimUnd_last_ne (s : Str) (h : trimUnd s ≠ []) :
    (trimUnd s).getLast h ≠ '_' := by
  have := List.rdropWhile_last_not (p := (· == '_')) (l := s.dropWhile (· == '_')) h
  simpa [beq_iff_eq] using this

/-- Trimming is the identity when neither end is an underscore. -/
theorem trimUnd_eq_self {s : Str} (h1 : s.head? ≠ some '_')
    (h2 : ∀ hn : s ≠ [], s.getLast hn ≠ '_') : trimUnd s = s := by
  unfold trimUnd
  have hd : s.dropWhile (· == '_') = s := by
    rw [List.dropWhile_eq_self_iff]
    intro hl
    cases s with
    | nil => simp at hl
    | cons c cs =>
      simp only [List.get, beq_iff_eq]
      intro hc
      exact h1 (by simp [hc])
  rw [hd, List.rdropWhile_eq_self_iff]
  intro hn
  simpa [beq_iff_eq] using h2 hn

/-- The output of `normalizeItem` contains neither spaces nor dashes. -/
theorem normalizeItem_no_space_dash (s : Str) :
    ∀ c ∈ normalizeItem s, c ≠ ' ' ∧ c ≠ '-' := by
  intro c hc
  unfold normalizeItem at hc
  have hc2 : c ∈ replaceChar (replaceChar s ' ' '_') '-' '_' :=
    squeezeUnd_mem (trimUnd_mem hc)
  constructor
  · exact mem_replaceChar_preserve
      (fun d hd => mem_replaceChar_ne (by decide) hd) (by decide) hc2
  · exact mem_replaceChar_ne (by decide) hc2

/-- The output of `normalizeItem` has no run of two or more underscores. -/
theorem normalizeItem_chain (s : Str) : List.Chain' noDD (normalizeItem s) :=
  trimUnd_chain (squeezeUnd_chain _)

/-- The output of `normalizeItem` does not start with an underscore. -/
theorem normalizeItem_head_ne (s : Str) : (normalizeItem s).head? ≠ some '_' :=
  trimUnd_head_ne _

/-- The output of `normalizeItem` does not end with an underscore. -/
theorem normalizeItem_last_ne (s : Str) (h : normalizeItem s ≠ []) :
    (normalizeItem s).getLast h ≠ '_' :=
  trimUnd_last_ne _ h

/-! ## Lemmas about first-occurrence search -/

/-- `indexOfSub` returns exactly the position of the first occurrence. -/
theorem indexOfSub_eq_some {pat : Str} : ∀ {s : Str} {i : Nat},
    occursAt s pat i = true → (∀ k, k < i → occursAt s pat k = false) →
    indexOfSub s pat = some i := by
  intro s
  induction s with
  | nil =>
    intro i h hmin
    have hp : pat.isPrefixOf ([] : Str) = true := by
      unfold occursAt at h
      rwa [List.drop_nil] at h
    have hi : i = 0 := by
      by_contra hne
      have h0 : occursAt [] pat 0 = false := hmin 0 (Nat.pos_of_ne_zero hne)
      unfold occursAt at h0
      rw [List.drop_nil] at h0
      rw [hp] at h0
      cases h0
    subst hi
    simp only [indexOfSub, hp, if_true]
  | cons c s' ih =>
    intro i h hmin
    cases i with
    | zero =>
      unfold occursAt at h
      rw [List.drop_zero] at h
      simp only [indexOfSub, h, if_true]
    | succ j =>
      have h0 : pat.isPrefixOf (c :: s') = false := by
        have := hmin 0 (Nat.succ_pos j)
        unfold occursAt at this
        rwa [List.drop_zero] at this
      have hshift : ∀ k, occursAt (c :: s') pat (k + 1) = occursAt s' pat k := by
        intro k
        unfold occursAt
        rw [List.drop_succ_cons]
      have hrec : indexOfSub s' pat = some j := by
        refine ih ?_ ?_
        · rw [← hshift j]; exact h
        · intro k hk
          rw [← hshift k]
          exact hmin (k + 1) (Nat.succ_lt_succ hk)
      simp only [indexOfSub, h0, if_false, Bool.false_eq_true, hrec, Option.map]

/-- A pattern occurs at the boundary position after a fixed left part. -/
theorem occursAt_append_left (pre pat rest : Str) :
    occursAt (pre ++ (pat ++ rest)) pat pre.length = true := by
  unfold occursAt
  rw [List.drop_left]
  have hp : pat <+: pat ++ rest := ⟨rest, rfl⟩
  exact List.isPrefixOf_iff_prefix.mpr hp

/-! ## Theorems for the claims -/

set_option maxRecDepth 1000000

/-- C1 (counterexample): the claim asserts that after a cycle in which
`collectTRH`'s fetch/decode fails, the `bdx_temperature` and `bdx_humidity`
families contain no samples from an earlier cycle.  In the code the `Reset`
calls come **after** the fetch and JSON decode succeed, so a failing cycle
returns early and the previous cycle's samples survive: starting from a
previous state holding `S1 = 20` / `S1 = 55`, a failed cycle leaves exactly
those stale samples exposed. -/
theorem C1_counterexample :
    collectTRHCycle [("S1".data, 20)] [("S1".data, 55)] none =
      ([("S1".data, 20)], [("S1".data, 55)]) ∧
    ("S1".data, (20 : ℚ)) ∈ (collectTRHCycle [("S1".data, 20)] [("S1".data, 55)] none).1 := by
  with_unfolding_all decide

/-- C1 (amended): reset-then-repopulate holds for the `bdx_cdu`,
`bdx_liquid` and `bdx_liquid_rack` families — `collectCDU` resets before
fetching (its output never depends on the previous state, and a failed URL
contributes nothing), and `collectLiquid` resets before fetching (a failed
scrape leaves both families empty) — but **not** for `bdx_temperature` /
`bdx_humidity`: `collectTRH` resets only after a successful fetch+decode, so
a failed TRH cycle retains the previous cycle's samples unchanged. -/
theorem C1_amended :
    (∀ prevT prevH, collectTRHCycle prevT prevH none = (prevT, prevH)) ∧
    (∀ prev₁ prev₂ pages, collectCDUCycle prev₁ pages = collectCDUCycle prev₂ pages) ∧
    (∀ prev pages, collectCDUCycle prev (none :: pages) = collectCDUCycle prev pages) ∧
    (∀ prevL prevR, collectLiquidCycle prevL prevR none = ([], [])) :=
  ⟨fun _ _ => rfl, fun _ _ _ => rfl, fun _ _ => rfl, fun _ _ => rfl⟩

/-- C2 (counterexample): the claim asserts the parameter value is parsed
from the first whitespace-delimited token of the cell text, so that a value
cell `23.5 C` yields value 23.5.  In `parseCDUHTML` the whole extracted cell
text is handed to `strconv.ParseFloat`, which rejects trailing text, so the
row is silently dropped and no parameter record at all is produced. -/
theorem C2_counterexample :
    (parseCDUHTML (paramPage "23.5 C")).2.2 = [] := by
  with_unfolding_all decide

/-- C2 (amended): a parameter row produces a record exactly when
`strconv.ParseFloat` accepts the **entire** extracted text of the value cell
(the third `<td`-chunk); the record's value is that parse result and its
unit comes from the separate fourth cell, so trailing text after the number
(such as a unit inside the value cell) makes the row be skipped rather than
truncated at the first token.  A value cell holding exactly `23.5` yields
value 23.5. -/
theorem C2_amended :
    (∀ (row : Str) (rec : CDUParameter), paramRowRecord row = some rec →
      parseFloat (extractText ((splitOnSub row "<td".data).getD 2 [])) = some rec.Value ∧
      rec.Unit = extractText ((splitOnSub row "<td".data).getD 3 [])) ∧
    (parseCDUHTML (paramPage "23.5")).2.2 =
      [⟨"TCS_Flow".data, 47 / 2, "l/min".data⟩] := by
  constructor
  · intro row rec h
    simp only [paramRowRecord] at h
    split at h
    · split at h
      · split at h
        · split at h
          · rename_i v hv
            cases h
            exact ⟨hv, rfl⟩
          · cases h
        · cases h
      · cases h
    · cases h
  · with_unfolding_all decide

/-- C2 (witness for the amended theorem): instantiated at the concrete
parameter row of the `23.5` page. -/
theorem C2_amended_witness :
    parseFloat (extractText ((splitOnSub c2GoodRow "<td".data).getD 2 [])) =
      some (⟨"TCS_Flow".data, 47 / 2, "l/min".data⟩ : CDUParameter).Value ∧
    (⟨"TCS_Flow".data, 47 / 2, "l/min".data⟩ : CDUParameter).Unit =
      extractText ((splitOnSub c2GoodRow "<td".data).getD 3 []) :=
  C2_amended.1 c2GoodRow ⟨"TCS_Flow".data, 47 / 2, "l/min".data⟩
    (by with_unfolding_all decide)

/-- C3 (counterexample): the claim asserts the alarm row `CDU 1.1 - Data
Hall` / `Active` is published with item label `cdu_1.1_data_hall`.  Neither
`normalizeItem` nor the publication step in `collectCDU` lower-cases the
item (only the status is lower-cased), so the published sample's item is
`CDU_1.1_Data_Hall`. -/
theorem C3_counterexample :
    collectCDUCycle [] [some c3Page] =
      [⟨"CGK3A_CL_1.04_CDU_1.1".data, "alarm".data, "CDU_1.1_Data_Hall".data,
        "active".data, [], 1⟩] ∧
    "CDU_1.1_Data_Hall".data ≠ "cdu_1.1_data_hall".data := by
  with_unfolding_all decide

/-- C4 (counterexample): the claim asserts a fixed substitution table with
`°C` → `C` and `I/min` → `l/min` on the exposed `metrix_type`, and that
units absent from the table pass through unchanged.  The exposed unit of a
`bdx_cdu` parameter sample is first lower-cased and then `°c` maps to
`celsius` (not `C`); `I/min` is not in the exposed-unit substitution at all
and comes out lower-cased as `i/min` — neither `l/min` nor unchanged. -/
theorem C4_counterexample :
    (cduParamSample "CDU_1.1".data ⟨"flow".data, 1, "°C".data⟩).metrixType =
      "celsius".data ∧
    "celsius".data ≠ "C".data ∧
    (cduParamSample "CDU_1.1".data ⟨"flow".data, 1, "I/min".data⟩).metrixType =
      "i/min".data ∧
    "i/min".data ≠ "l/min".data ∧
    "i/min".data ≠ "I/min".data := by
  with_unfolding_all decide

/-- C4 (amended): the exposed `metrix_type` of a `bdx_cdu` parameter sample
is the unit lower-cased, with exactly two substitutions afterwards — `°c` →
`celsius` and `%rh` → `percent_rh`; every other unit is exposed in its
lower-cased form (not unchanged).  The `I/min` → `l/min` and `°C` → `C`
substitutions exist only on value-cell **text before numeric parsing** in
the liquid-cooling table parsers, not on any exposed unit. -/
theorem C4_amended :
    (∀ name p, (cduParamSample name p).metrixType = cduUnitNormalize p.Unit) ∧
    cduUnitNormalize "°C".data = "celsius".data ∧
    cduUnitNormalize "%RH".data = "percent_rh".data ∧
    (∀ u, toLowerStr u ≠ "°c".data → toLowerStr u ≠ "%rh".data →
      cduUnitNormalize u = toLowerStr u) ∧
    cduTableValueNormalize "23.5 I/min".data = "23.5 l/min".data ∧
    cduTableValueNormalize "17.0 °C".data = "17.0 C".data := by
  refine ⟨fun name p => rfl, by with_unfolding_all decide, by with_unfolding_all decide,
    fun u h1 h2 => ?_, by with_unfolding_all decide, by with_unfolding_all decide⟩
  unfold cduUnitNormalize
  rw [if_neg h1, if_neg h2]

/-- C4 (witness for the amended theorem): instantiated at the unit `kW`,
which is in neither substitution, and is exposed lower-cased as `kw`. -/
theorem C4_amended_witness :
    cduUnitNormalize "kW".data = toLowerStr "kW".data :=
  C4_amended.2.2.2.1 "kW".data (by with_unfolding_all decide)
    (by with_unfolding_all decide)

/-- C5 (code bug): the claim — matching the shared numeric-parsing policy of
the specification and the guard present in the sibling `parseCDUTable` — says
a value cell that fails numeric parsing (including an empty cell) only drops
that cell and the parser is total.  `parseRackTable` indexes
`strings.Fields(valueStr)[0]` without checking emptiness, so a row whose
value cell extracts to the empty string panics (index out of range),
aborting the whole parse: on the one-rack table with an empty value cell the
embedded parser yields the panic marker `none`. -/
theorem C5_panic_eval :
    parseRackTable c5Table "A".data = none := by
  with_unfolding_all decide

set_option maxHeartbeats 4000000 in
/-- C6: for the rack-matrix table whose header declares racks `7` and `8`
and whose body holds one row per known field label, **every** one of the 24
body-row orders parses to the same two aggregates, keyed by the rack
identifier string; flattened the way `collectLiquid` publishes them they
make exactly 8 (rack, field) samples — 4 carrying name `7` and 4 carrying
name `8`. -/
theorem C6_rack_matrix :
    ((allOrders c6Rows).all fun rows =>
      decide (parseRackTable (mkC6Table rows) "A".data = some c6Expected)) = true ∧
    (allOrders c6Rows).length = 24 ∧
    (c6Expected.flatMap liquidRackSamples).length = 8 ∧
    (c6Expected.flatMap liquidRackSamples).map (fun s => s.name) =
      ["7".data, "7".data, "7".data, "7".data,
       "8".data, "8".data, "8".data, "8".data] := by
  with_unfolding_all decide

/-- Folding the sensor loop from any accumulator is the same as publishing
only the sensors that coerce (helper for C7). -/
theorem trhFold_filterMap :
    ∀ (sensors : List SensorData) (acc : List (Str × ℚ) × List (Str × ℚ)),
      sensors.foldl trhStep acc =
        (sensors.filterMap coerceSensor).foldl
          (fun acc r => (trhGaugeSet acc.1 r.1 r.2.1, trhGaugeSet acc.2 r.1 r.2.2)) acc := by
  intro sensors
  induction sensors with
  | nil => intro acc; rfl
  | cons s rest ih =>
    intro acc
    simp only [List.foldl_cons, List.filterMap_cons]
    cases ht : parseValue s.temp with
    | none =>
      have hstep : trhStep acc s = acc := by unfold trhStep; rw [ht]
      have hco : coerceSensor s = none := by unfold coerceSensor; rw [ht]
      rw [hstep, hco, ih]
    | some tv =>
      cases hh : parseValue s.rh with
      | none =>
        have hstep : trhStep acc s = acc := by unfold trhStep; rw [ht, hh]
        have hco : coerceSensor s = none := by unfold coerceSensor; rw [ht, hh]
        rw [hstep, hco, ih]
      | some hv =>
        have hstep : trhStep acc s = (trhGaugeSet acc.1 s.label tv, trhGaugeSet acc.2 s.label hv) := by
          unfold trhStep; rw [ht, hh]
        have hco : coerceSensor s = some (s.label, tv, hv) := by
          unfold coerceSensor; rw [ht, hh]
        rw [hstep, hco, List.foldl_cons, ih]

/-- C7: the sensor batch is published element-wise — a sensor contributes
its coerced `temp` and `rh` exactly when both coerce (whether they arrive as
JSON numbers or as numeric strings), and a sensor that fails coercion is
skipped without affecting any other element (the published families are a
function of the coercible sensors only).  In particular the batch
`[{label: S1, temp: "23.5", rh: 70.2}]` publishes `bdx_temperature{name="S1"}
= 23.5` and `bdx_humidity{name="S1"} = 70.2`, and a mixed batch keeps
exactly its coercible sensors. -/
theorem C7_sensor_coercion :
    (∀ sensors, processSensors sensors = publishReadings (sensors.filterMap coerceSensor)) ∧
    collectTRHCycle [] []
        (some [⟨"S1".data, JSONValue.str "23.5".data, JSONValue.num (351 / 5)⟩]) =
      ([("S1".data, 47 / 2)], [("S1".data, 351 / 5)]) ∧
    processSensors
        [⟨"A".data, JSONValue.num 1, JSONValue.num 2⟩,
         ⟨"B".data, JSONValue.str "x".data, JSONValue.num 3⟩,
         ⟨"C".data, JSONValue.num 4, JSONValue.other⟩,
         ⟨"D".data, JSONValue.num 5, JSONValue.num 6⟩] =
      ([("A".data, 1), ("D".data, 5)], [("A".data, 2), ("D".data, 6)]) := by
  refine ⟨fun sensors => trhFold_filterMap sensors ([], []), ?_, ?_⟩
  · with_unfolding_all decide
  · with_unfolding_all decide

/-- C9 (code bug): the claim — stated as a requirement in the specification,
which itself calls the clear-then-set pattern a known defect — says a
concurrent reader observes either the previous or the new full sample set.
`collectTRH` issues `Reset` followed by one `Set` per sensor on the live
registered family, so the state right after the `Reset` (the empty family)
is observable, and it is neither the previous cycle's set (`S1 = 20`) nor
the new one (`S1 = 21`). -/
theorem C9_intermediate_state_eval :
    [] ∈ observableStates [("S1".data, 20)]
        (trhTempOps [⟨"S1".data, JSONValue.num 21, JSONValue.num 50⟩]) ∧
    ([] : List (Str × ℚ)) ≠ [("S1".data, 20)] ∧
    ([] : List (Str × ℚ)) ≠
      (trhTempOps [⟨"S1".data, JSONValue.num 21, JSONValue.num 50⟩]).foldl applyOp
        [("S1".data, 20)] := by
  with_unfolding_all decide

/-- C8: `normalizeItem` is idempotent — its output contains no spaces or
dashes (so the replacement passes are the identity on it), no run of two or
more underscores (so the collapse pass is the identity), and no boundary
underscore (so the trim pass is the identity); hence normalizing an
already-normalized string, whatever mixture of spaces, dashes and repeated
separators the original contained, returns it unchanged. -/
theorem C8_normalizeItem_idempotent (s : Str) :
    normalizeItem (normalizeItem s) = normalizeItem s := by
  have h1 : replaceChar (normalizeItem s) ' ' '_' = normalizeItem s :=
    replaceChar_eq_self fun c hc => (normalizeItem_no_space_dash s c hc).1
  have h2 : replaceChar (normalizeItem s) '-' '_' = normalizeItem s :=
    replaceChar_eq_self fun c hc => (normalizeItem_no_space_dash s c hc).2
  have h3 : squeezeUnd (normalizeItem s) = normalizeItem s :=
    squeezeUnd_eq_self _ (normalizeItem_chain s)
  have h4 : trimUnd (normalizeItem s) = normalizeItem s :=
    trimUnd_eq_self (normalizeItem_head_ne s) (normalizeItem_last_ne s)
  show trimUnd (squeezeUnd (replaceChar (replaceChar (normalizeItem s) ' ' '_') '-' '_')) =
    normalizeItem s
  rw [h1, h2, h3, h4]

/-- C3 (amended): the alarm row with item text `CDU 1.1 - Data Hall` and
status `Active` is published as the sample
`bdx_cdu(type=alarm, item=CDU_1.1_Data_Hall, status=active, metrix_type="")`
with value 1 — the item keeps its letter case (only the status is
lower-cased) — and, in general, every normalized item has spaces and dashes
collapsed into single underscores with no leading or trailing underscore and
no run of two or more underscores. -/
theorem C3_amended :
    collectCDUCycle [] [some c3Page] =
      [⟨"CGK3A_CL_1.04_CDU_1.1".data, "alarm".data, "CDU_1.1_Data_Hall".data,
        "active".data, [], 1⟩] ∧
    (∀ s, ∀ c ∈ normalizeItem s, c ≠ ' ' ∧ c ≠ '-') ∧
    (∀ s, List.Chain' noDD (normalizeItem s)) ∧
    (∀ s, (normalizeItem s).head? ≠ some '_') ∧
    (∀ s h, (normalizeItem s).getLast h ≠ '_') := by
  exact ⟨by with_unfolding_all decide, normalizeItem_no_space_dash,
    normalizeItem_chain, normalizeItem_head_ne, normalizeItem_last_ne⟩

/-- C3 (witness for the amended theorem): instantiated at the scenario's raw
item text and the character `D`, which the normalized item does contain. -/
theorem C3_amended_witness :
    'D' ∈ normalizeItem "CDU 1.1 - Data Hall".data ∧
    'D' ≠ ' ' ∧ 'D' ≠ '-' :=
  ⟨by with_unfolding_all decide,
   C3_amended.2.1 "CDU 1.1 - Data Hall".data 'D' (by with_unfolding_all decide)⟩

/-- C10: name extraction in `parseCDUHTML`.  If the page holds no
`<h5 class="card-title mb-0">` element the returned name is the fallback
`CDU_1.1`; when the element is present (first occurrence at the end of
`pre`) with text `t` before the closing `</h5>`, the name is the trimmed
text with every `-` replaced by `_` — and when that normalized text is
empty (no text or white space only) the fallback `CDU_1.1` is returned, so
a title-extraction failure silently attributes the page to `CDU_1.1`. -/
theorem C10_title_extraction :
    (∀ html : Str, indexOfSub html h5Marker = none →
      parseCDUName html = "CDU_1.1".data) ∧
    (∀ pre t post : Str,
      (∀ k, k < pre.length →
        occursAt (pre ++ (h5Marker ++ (t ++ ("</h5>".data ++ post)))) h5Marker k = false) →
      (∀ k, k < h5Marker.length + t.length →
        occursAt (h5Marker ++ (t ++ ("</h5>".data ++ post))) "</h5>".data k = false) →
      parseCDUName (pre ++ (h5Marker ++ (t ++ ("</h5>".data ++ post)))) =
        (if replaceChar (trimSpace t) '-' '_' = [] then "CDU_1.1".data
         else replaceChar (trimSpace t) '-' '_')) := by
  constructor
  · intro html h
    unfold parseCDUName
    rw [h]
    rfl
  · intro pre t post H1 H2
    have hidx1 : indexOfSub (pre ++ (h5Marker ++ (t ++ ("</h5>".data ++ post)))) h5Marker
        = some pre.length :=
      indexOfSub_eq_some (occursAt_append_left pre h5Marker _) H1
    have hdrop1 : (pre ++ (h5Marker ++ (t ++ ("</h5>".data ++ post)))).drop pre.length
        = h5Marker ++ (t ++ ("</h5>".data ++ post)) := List.drop_left pre _
    have hocc2 : occursAt (h5Marker ++ (t ++ ("</h5>".data ++ post))) "</h5>".data
        (h5Marker.length + t.length) = true := by
      have h := occursAt_append_left (h5Marker ++ t) "</h5>".data post
      rwa [List.append_assoc, List.length_append] at h
    have hidx2 : indexOfSub (h5Marker ++ (t ++ ("</h5>".data ++ post))) "</h5>".data
        = some (h5Marker.length + t.length) := indexOfSub_eq_some hocc2 H2
    have hdrop2 : (pre ++ (h5Marker ++ (t ++ ("</h5>".data ++ post)))).drop
        (pre.length + h5Marker.length) = t ++ ("</h5>".data ++ post) := by
      rw [← List.append_assoc pre h5Marker]
      exact List.drop_left' (by rw [List.length_append])
    unfold parseCDUName
    rw [hidx1]
    simp only [hdrop1, hidx2, hdrop2, Nat.add_sub_cancel_left, List.take_left' rfl]

/-- C10 (witness): instantiated at a page whose title text is
` CDU-3.2 `, surrounded by other markup; the extracted name is `CDU_3.2`. -/
theorem C10_title_witness :
    parseCDUName ("<body>".data ++ (h5Marker ++ (" CDU-3.2 ".data ++ ("</h5>".data ++ "<p>".data)))) =
      "CDU_3.2".data :=
  (C10_title_extraction.2 "<body>".data " CDU-3.2 ".data "<p>".data
      (by with_unfolding_all decide) (by with_unfolding_all decide)).trans
    (by with_unfolding_all decide)

end BDX
